import Mathlib

/-!
Shallow embedding of the violation-extraction and matching engine of the
Refactoraptor repository, covering:

* `extract_violations_by_strategy` / `extract_violation_type` of
  `src/reprocess_dip/violation_comparison.py` and `src/vio_compare_t2.py`;
* `extract_violation_type` and `find_ground_truth_by_input` of
  `src/analytic_reports_trials/violations_comparison.py`;
* `compare_single_output` and `process_violation_type` of those files;
* the `difflib.SequenceMatcher.ratio` similarity used by the matcher.

Modelling conventions:
* Python strings are `String` (a wrapper around `List Char`); all character
  classes are modelled over ASCII.  `re.IGNORECASE` on `[A-Z]` is modelled as
  matching ASCII letters of either case, and case-insensitive literals compare
  `Char.toLower` images; the Unicode-only corner cases of Python's casefolding
  (e.g. U+017F) are outside the model.
* `re.findall` / `re.finditer` left-to-right non-overlapping scanning is
  modelled by structural scans that attempt a match at each position and, on
  success, resume after the matched span.
* Python `set` accumulation is modelled by first-occurrence deduplication
  (`setList`); downstream code only uses cardinality, membership and the sole
  element of singletons, all of which are independent of Python's set order.
* `float` comparison `similarity > 0.9` is modelled over `ℚ` as
  `similarity > 9/10`; for inputs of the sizes handled here the double
  rounding of `2.0*M/T` cannot cross the threshold, so the models agree.
-/

/-- ASCII model of Python's `[A-Z]` character class under `re.IGNORECASE`. -/
def isLetterAZ (c : Char) : Bool :=
  ('A' ≤ c && c ≤ 'Z') || ('a' ≤ c && c ≤ 'z')

/-- ASCII model of Python's `\s` class (`str.isspace` on the ASCII range). -/
def isSpaceChar (c : Char) : Bool :=
  c = ' ' || c = '\t' || c = '\n' || c = '\r' || c = '\x0b' || c = '\x0c'

/-- ASCII model of Python's `\w` word-character class. -/
def isWordChar (c : Char) : Bool :=
  c.isAlphanum || c = '_'

/-- Python `str.upper()` (ASCII model). -/
def strUpper (s : String) : String :=
  ⟨s.data.map Char.toUpper⟩

/-- Python `str.lower()` (ASCII model). -/
def strLower (s : String) : String :=
  ⟨s.data.map Char.toLower⟩

/-- Case-insensitive literal match: consume `lit` at the head of `text`,
returning the rest of `text` on success.  Models a `re.IGNORECASE` literal. -/
def matchLitCI : List Char → List Char → Option (List Char)
  | [], t => some t
  | _ :: _, [] => none
  | p :: ps, c :: ts => if c.toLower = p.toLower then matchLitCI ps ts else none

/-- Take up to `n` leading `[A-Z]`-class characters (greedy bounded repeat). -/
def takeLetters : Nat → List Char → List Char × List Char
  | 0, l => ([], l)
  | _ + 1, [] => ([], [])
  | n + 1, c :: t =>
    if isLetterAZ c then
      let (xs, r) := takeLetters n t
      (c :: xs, r)
    else ([], c :: t)

/-- The number of leading whitespace characters: greedy `\s*`. -/
def countLeadingWS : List Char → Nat
  | [] => 0
  | c :: t => if isSpaceChar c then countLeadingWS t + 1 else 0

/-- The closed label vocabulary shared by all the extractors. -/
def validLabels : List String := ["SRP", "OCP", "LSP", "ISP", "DIP", "NONE"]

/-- First-occurrence deduplication; models accumulation into a Python `set`. -/
def setList (l : List String) : List String :=
  l.foldl (fun acc x => if x ∈ acc then acc else acc ++ [x]) []

/-! ### The `**X**` rule (pattern `\*\*([A-Z]{2,3}|NONE)\*\*`, `re.IGNORECASE`)

Used by the `example` and `smell` strategies of both strategy-based scripts,
and by the `ensemble` strategy of `vio_compare_t2.py`. -/

/-- Attempt the body `([A-Z]{2,3}|NONE)\*\*` after an opening `**`.
Returns the captured group text and the body length (capture + closing `**`).
The greedy `{2,3}` tries three letters, then two, then the `NONE` literal,
exactly as the backtracking engine does. -/
def matchBoldBody (rest : List Char) : Option (List Char × Nat) :=
  let (ls, r) := takeLetters 3 rest
  if ls.length = 3 ∧ r.take 2 = ['*', '*'] then
    some (ls, 5)
  else if 2 ≤ ls.length ∧ ((ls.drop 2) ++ r).take 2 = ['*', '*'] then
    some (ls.take 2, 4)
  else
    match matchLitCI "NONE".data rest with
    | some r2 => if r2.take 2 = ['*', '*'] then some (rest.take 4, 6) else none
    | none => none

/-- Attempt `\*\*([A-Z]{2,3}|NONE)\*\*` at the current position.
Returns the captured group text and the total match length. -/
def matchBoldAt : List Char → Option (List Char × Nat)
  | c1 :: c2 :: rest =>
    if c1 = '*' ∧ c2 = '*' then (matchBoldBody rest).map (fun p => (p.1, p.2 + 2))
    else none
  | _ => none

/-- Non-overlapping left-to-right scan with the `**X**` rule.  `skip` is the
number of positions still covered by the previous match (a match of length
`n` at the current position emits its capture and skips the next `n - 1`
positions, restarting after the matched span, exactly as `re.findall`
does). -/
def boldScanGo (skip : Nat) : List Char → List String
  | [] => []
  | c :: rest =>
    match skip with
    | s + 1 => boldScanGo s rest
    | 0 =>
      match matchBoldAt (c :: rest) with
      | some (cap, n) => String.mk cap :: boldScanGo (n - 1) rest
      | none => boldScanGo 0 rest

/-- Models `re.findall(r"\*\*([A-Z]{2,3}|NONE)\*\*", text, re.IGNORECASE)`. -/
def boldScan (text : List Char) : List String :=
  boldScanGo 0 text

/-! ### The keyword rule (pattern `\b(SRP|OCP|LSP|ISP|DIP|NONE)\b`)

Used by the `default` strategy (and by any unrecognized strategy, through the
`dict.get` fallback). -/

/-- The alternatives of the keyword pattern, in alternation order. -/
def keywordAlts : List (List Char) :=
  ["SRP".data, "OCP".data, "LSP".data, "ISP".data, "DIP".data, "NONE".data]

/-- Attempt one keyword alternative at the head of `text`: the literal matches
case-insensitively and the following character must not be a word character
(the trailing `\b`).  Returns the matched text. -/
def matchKeyword (kw : List Char) (text : List Char) : Option (List Char × Nat) :=
  match matchLitCI kw text with
  | some r =>
    match r with
    | [] => some (text.take kw.length, kw.length)
    | c :: _ => if isWordChar c then none else some (text.take kw.length, kw.length)
  | none => none

/-- Attempt `\b(SRP|OCP|LSP|ISP|DIP|NONE)\b` at the current position, where
`prev` is the character before the position (`none` at the string start).
The leading `\b` requires `prev` to not be a word character. -/
def matchKeywordAt (prev : Option Char) (text : List Char) : Option (List Char × Nat) :=
  if (prev.map isWordChar).getD false then none
  else
    keywordAlts.foldr (fun kw acc =>
      match matchKeyword kw text with
      | some m => some m
      | none => acc) none

/-- Non-overlapping scan with the keyword rule; `prev` is the character just
before the current position (for the leading `\b`), `skip` the number of
positions still covered by the previous match. -/
def keywordScanGo (skip : Nat) (prev : Option Char) : List Char → List String
  | [] => []
  | c :: rest =>
    match skip with
    | s + 1 => keywordScanGo s (some c) rest
    | 0 =>
      match matchKeywordAt prev (c :: rest) with
      | some (cap, n) => String.mk cap :: keywordScanGo (n - 1) (some c) rest
      | none => keywordScanGo 0 (some c) rest

/-- Models `re.findall(r"\b(SRP|OCP|LSP|ISP|DIP|NONE)\b", text, re.IGNORECASE)`. -/
def keywordScan (text : List Char) : List String :=
  keywordScanGo 0 none text

/-! ### The ensemble rule of `reprocess_dip/violation_comparison.py`

Pattern `(?:MOST IMPACTFUL VIOLATION:\s*([A-Z]{2,3}|NONE)|\*\*([A-Z]{2,3}|NONE)\*\*)`
with `re.IGNORECASE`, scanned with `re.finditer`; each match contributes
`match.group(1) or match.group(2)`. -/

/-- The labeled-line literal. -/
def mostLit : List Char := "MOST IMPACTFUL VIOLATION:".data

/-- Attempt the first ensemble alternative
`MOST IMPACTFUL VIOLATION:\s*([A-Z]{2,3}|NONE)` at the current position.
After `\s*` the group tries three letters, then two, then `NONE`; there is no
trailing context, so a three-letter prefix of a longer word is captured
(`NONE` after the colon is therefore captured as `NON`).  Giving back `\s*`
characters can never help the group match (whitespace is not a letter), so
maximal-munch without backtracking is faithful. -/
def matchMostAt (text : List Char) : Option (List Char × Nat) :=
  match matchLitCI mostLit text with
  | some r =>
    let wsN := countLeadingWS r
    let r2 := r.drop wsN
    let (ls, _) := takeLetters 3 r2
    if 2 ≤ ls.length then some (ls, mostLit.length + wsN + ls.length)
    else
      match matchLitCI "NONE".data r2 with
      | some _ => some (r2.take 4, mostLit.length + wsN + 4)
      | none => none
  | none => none

/-- Attempt the full ensemble alternation at the current position. -/
def matchEnsembleAt (text : List Char) : Option (List Char × Nat) :=
  match matchMostAt text with
  | some m => some m
  | none => matchBoldAt text

/-- Non-overlapping scan with the ensemble rule; `skip` as in the other
scans. -/
def ensembleScanGo (skip : Nat) : List Char → List String
  | [] => []
  | c :: rest =>
    match skip with
    | s + 1 => ensembleScanGo s rest
    | 0 =>
      match matchEnsembleAt (c :: rest) with
      | some (cap, n) => String.mk cap :: ensembleScanGo (n - 1) rest
      | none => ensembleScanGo 0 rest

/-- Models the `re.finditer` loop of `extract_violations_by_strategy` for the
`ensemble` strategy of `reprocess_dip/violation_comparison.py`. -/
def ensembleScan (text : List Char) : List String :=
  ensembleScanGo 0 text

/-! ### Strategy dispatch (`strategy_regex_patterns` and `dict.get` fallback) -/

/-- The three distinct extraction rules appearing in `strategy_regex_patterns`.
Used in place of the raw regex source strings. -/
inductive Pat where
  | ensembleP : Pat
  | boldP : Pat
  | keywordP : Pat
deriving DecidableEq, Repr

/-- The `strategy_regex_patterns` table of
`src/reprocess_dip/violation_comparison.py` (`dict.get` without default). -/
def reprocessPatternTable (strategy : String) : Option Pat :=
  if strategy = "ensemble" then some .ensembleP
  else if strategy = "example" then some .boldP
  else if strategy = "smell" then some .boldP
  else if strategy = "default" then some .keywordP
  else none

/-- The `strategy_regex_patterns` table of `src/vio_compare_t2.py`: the
`ensemble` entry is the plain `**X**` pattern there. -/
def t2PatternTable (strategy : String) : Option Pat :=
  if strategy = "ensemble" then some .boldP
  else if strategy = "example" then some .boldP
  else if strategy = "smell" then some .boldP
  else if strategy = "default" then some .keywordP
  else none

/-- `re.findall` of a chosen pattern over the text (non-`ensemble` branch). -/
def scanWith (p : Pat) (text : List Char) : List String :=
  match p with
  | .ensembleP => ensembleScan text
  | .boldP => boldScan text
  | .keywordP => keywordScan text

/-- Raw capture list of `extract_violations_by_strategy`
(`src/reprocess_dip/violation_comparison.py`, lines 95-127) before
validation: the pattern is `strategy_regex_patterns.get(strategy, default)`,
with the dedicated `finditer` branch for the `ensemble` strategy. -/
def reprocessRawScan (text : List Char) (strategy : String) : List String :=
  if strategy = "ensemble" then ensembleScan text
  else scanWith ((reprocessPatternTable strategy).getD .keywordP) text

/-- Raw capture list of `extract_violations_by_strategy`
(`src/vio_compare_t2.py`, lines 117-133). -/
def t2RawScan (text : List Char) (strategy : String) : List String :=
  scanWith ((t2PatternTable strategy).getD .keywordP) text

/-- `extract_violations_by_strategy` of
`src/reprocess_dip/violation_comparison.py`: every match is uppercased,
validated against the closed vocabulary, and accumulated into a set. -/
def reprocessExtract (text : String) (strategy : String) : List String :=
  setList (((reprocessRawScan text.data strategy).map strUpper).filter
    (fun v => v ∈ validLabels))

/-- `extract_violations_by_strategy` of `src/vio_compare_t2.py`: every match
is uppercased and validated, but appended to a plain list (no
deduplication). -/
def t2Extract (text : String) (strategy : String) : List String :=
  ((t2RawScan text.data strategy).map strUpper).filter
    (fun v => v ∈ validLabels)

/-! ### The extractor of `src/analytic_reports_trials/violations_comparison.py`

`extract_violation_type` (lines 137-151): `re.search` of
`\*\*([A-Z]{3})\*\*` (first match, uppercased, no vocabulary check), else
`re.search` of `\*\*NONE\*\*`, else `None`. -/

/-- Attempt `\*\*([A-Z]{3})\*\*` at the current position (exact repeat `{3}`,
no alternatives). -/
def matchTriBoldAt : List Char → Option (List Char)
  | '*' :: '*' :: a :: b :: c :: '*' :: '*' :: _ =>
    if isLetterAZ a && isLetterAZ b && isLetterAZ c then some [a, b, c] else none
  | _ => none

/-- `re.search(r"\*\*([A-Z]{3})\*\*", text, re.IGNORECASE)`: the leftmost
match's capture. -/
def searchTriBold : List Char → Option String
  | [] => none
  | c :: t =>
    match matchTriBoldAt (c :: t) with
    | some cap => some (String.mk cap)
    | none => searchTriBold t

/-- `re.search(r"\*\*NONE\*\*", text, re.IGNORECASE)` as a Boolean. -/
def hasBoldNone : List Char → Bool
  | [] => false
  | c :: t => (matchLitCI "**NONE**".data (c :: t)).isSome || hasBoldNone t

/-- `extract_violation_type` of
`src/analytic_reports_trials/violations_comparison.py` (lines 137-151).
The appends to the `extracted_patterns` reporting accumulator are omitted:
no claim mentions them and they do not feed back into classification. -/
def analyticExtract (text : String) : Option String :=
  match searchTriBold text.data with
  | some v => some (strUpper v)
  | none => if hasBoldNone text.data then some "NONE" else none

/-! ### `difflib.SequenceMatcher.ratio` (no junk; `autojunk` is inactive for
the string lengths exercised here, i.e. `len(b) < 200`). -/

/-- Length of the longest common prefix of two character lists. -/
def runLen : List Char → List Char → Nat
  | a :: as, b :: bs => if a = b then runLen as bs + 1 else 0
  | _, _ => 0

/-- The better of two matching-block candidates `(i, j, k)` under `difflib`'s
documented preference: larger block size `k`, ties broken by smaller start
`i` in `a`, then smaller start `j` in `b`.  On full ties the left argument
is kept. -/
def flmCmp (x y : Nat × Nat × Nat) : Nat × Nat × Nat :=
  if y.2.2 > x.2.2 ∨
      (y.2.2 = x.2.2 ∧ (y.1 < x.1 ∨ (y.1 = x.1 ∧ y.2.1 < x.2.1))) then y
  else x

/-- Best matching block on one diagonal: `xs, ys` are the suffixes of the two
lists starting at positions `i, j` (with `i - j` constant along the walk).
At each run of equal characters the candidate `(i, j, runLen)` is recorded at
the run's start and the interior of the run is skipped (`skip`); interior
starts give strictly shorter blocks and can never be a best block, so this
collects exactly the candidates that matter. -/
def diagBestGo (skip i j : Nat) : List Char → List Char → Nat × Nat × Nat
  | x :: xs, y :: ys =>
    match skip with
    | s + 1 => diagBestGo s (i + 1) (j + 1) xs ys
    | 0 =>
      if x = y then
        flmCmp (i, j, runLen (x :: xs) (y :: ys))
          (diagBestGo (runLen (x :: xs) (y :: ys) - 1) (i + 1) (j + 1) xs ys)
      else diagBestGo 0 (i + 1) (j + 1) xs ys
  | _, _ => (0, 0, 0)

/-- One pass combining adjacent candidates with `flmCmp`. -/
def pairPass : List (Nat × Nat × Nat) → List (Nat × Nat × Nat)
  | x :: y :: rest => flmCmp x y :: pairPass rest
  | l => l

/-- Balanced reduction of a candidate list under `flmCmp` (`(0, 0, 0)` for
the empty list).  Since `flmCmp` picks the best candidate under a fixed
total preference, the result does not depend on the reduction shape; the
balanced shape keeps evaluation depth logarithmic.  Each pass halves the
list, so `fuel = length` suffices. -/
def reduceBest : Nat → List (Nat × Nat × Nat) → Nat × Nat × Nat
  | _, [] => (0, 0, 0)
  | _, [x] => x
  | 0, x :: _ :: _ => x
  | fuel + 1, x :: y :: rest => reduceBest fuel (pairPass (x :: y :: rest))

/-- `find_longest_match` over whole lists: the documented behaviour with no
junk — the longest matching block, ties broken by the earliest start in `a`,
then the earliest start in `b`; `(0, 0, 0)` when there is no nonempty common
block, as in `difflib`.  Computed by examining every diagonal (all
alignments of the two lists) and keeping the best run start under
`flmCmp`. -/
def findLongestBlock (a b : List Char) : Nat × Nat × Nat :=
  let diagA := (List.range a.length).map (fun i => diagBestGo 0 i 0 (a.drop i) b)
  let diagB := (List.range b.length).map (fun j => diagBestGo 0 0 j a (b.drop j))
  reduceBest (diagA ++ diagB).length (diagA ++ diagB)

/-- Total size of the matching blocks (`get_matching_blocks` recursion of
`difflib`): the longest block plus the blocks of the parts to its left and
right.  `fuel` is a structural-recursion bound: by `findLongestBlock_bounds`,
when the longest block is nonempty both recursive calls strictly decrease
`a.length + b.length`, so `fuel = a.length + b.length` (as supplied by
`matchingSize`) always suffices and the fuel case is never hit. -/
def matchingSizeFuel : Nat → List Char → List Char → Nat
  | 0, _, _ => 0
  | fuel + 1, a, b =>
    let t := findLongestBlock a b
    if t.2.2 = 0 then 0
    else
      matchingSizeFuel fuel (a.take t.1) (b.take t.2.1) + t.2.2 +
        matchingSizeFuel fuel (a.drop (t.1 + t.2.2)) (b.drop (t.2.1 + t.2.2))

/-- Sum of the sizes of all matching blocks of `a` and `b`. -/
def matchingSize (a b : List Char) : Nat :=
  matchingSizeFuel (a.length + b.length) a b

/-- `difflib.SequenceMatcher(None, a, b).ratio()` as an exact rational:
`2*M/T`, and `1` when both strings are empty (`_calculate_ratio`).
(`mkRat` is used instead of field division so that concrete values are
kernel-computable; `mkRat n d = n / d` over `ℚ`.) -/
def similarity (a b : List Char) : ℚ :=
  if a.length + b.length = 0 then 1
  else mkRat (2 * matchingSize a b) (a.length + b.length)

/-- The fixed fuzzy threshold `0.9` of `find_ground_truth_by_input`, as an
exact rational (`mkRat 9 10 = 9/10 = 0.9`). -/
def fuzzyThreshold : ℚ := mkRat 9 10

/-! ### The matcher: `find_ground_truth_by_input`
(`src/analytic_reports_trials/violations_comparison.py`, lines 323-346). -/

/-- Python `str.strip()` (ASCII whitespace model). -/
def stripChars (l : List Char) : List Char :=
  ((l.dropWhile isSpaceChar).reverse.dropWhile isSpaceChar).reverse

/-- `re.sub(r"\s+", " ", s)`: each maximal whitespace run becomes one space.
`afterSpace` records whether the current position continues a run. -/
def normWSGo (afterSpace : Bool) : List Char → List Char
  | [] => []
  | c :: t =>
    if isSpaceChar c then
      if afterSpace then normWSGo true t else ' ' :: normWSGo true t
    else c :: normWSGo false t

/-- Whitespace-run normalization used by the second matching rule. -/
def normWS (l : List Char) : List Char :=
  normWSGo false l

/-- One ground-truth example (an entry of the `code_examples` pool). -/
structure GTRecord where
  input : String
  violation : String
  level : String
deriving DecidableEq, Repr

/-- The per-candidate test of the matching loop, on the already-stripped
snippets: exact equality, then whitespace-normalized equality, then fuzzy
similarity strictly above `0.9` — the first success returns the candidate. -/
def gtRuleHit (o g : List Char) : Bool :=
  o = g || normWS o = normWS g || fuzzyThreshold < similarity o g

/-- `find_ground_truth_by_input`: the output snippet is stripped once, each
pool candidate is stripped and tested in pool order, and the first candidate
passing any rule is returned. -/
def find_ground_truth_by_input (outInput : String) (gts : List GTRecord) : Option GTRecord :=
  gts.find? (fun gt => gtRuleHit (stripChars outInput.data) (stripChars gt.input.data))

/-! ### Output records and the two `compare_single_output` variants -/

/-- One model-output record, with the fields the comparison logic reads.
(`dict.get` defaults only fire on records missing keys; loaded records are
modelled as carrying all fields.) -/
structure OutputItem where
  id : Int
  model : String
  language : String
  violation_type : String
  input : String
  raw_response : String
deriving DecidableEq, Repr

/-- Result of `compare_single_output` in
`src/analytic_reports_trials/violations_comparison.py` (lines 348-406):
either the early `ERROR` dictionary (id, status `ERROR`, error message,
language — nothing else) or the full comparison dictionary.  The
`code_blocks` / `language_analysis` / `violation_analysis` reporting fields
are omitted: no claim refers to them and they do not influence the status. -/
inductive AResult where
  | gtError (id : Int) (error : String) (language : String) : AResult
  | compared (id : Int) (status : String) (language : String)
      (expected_violation : String) (detected_violation : Option String)
      (violation_match : Bool) (response_length : Nat)
      (ground_truth_level : String) (similarity_to_gt : ℚ) : AResult
deriving DecidableEq, Repr

/-- The `status` field of either result dictionary. -/
def AResult.status : AResult → String
  | .gtError _ _ _ => "ERROR"
  | .compared _ s _ _ _ _ _ _ _ => s

/-- `compare_single_output` of
`src/analytic_reports_trials/violations_comparison.py`: resolve the ground
truth by input similarity (ERROR when unresolved), extract the violation
from the response, and compare it with the ground-truth label. -/
def analyticCompareSingle (item : OutputItem) (gts : List GTRecord) : AResult :=
  match find_ground_truth_by_input item.input gts with
  | none => .gtError item.id "No matching ground truth found" item.language
  | some gt =>
    let extracted := analyticExtract item.raw_response
    let gtViolation := strUpper gt.violation
    let vmatch := extracted = some gtViolation
    .compared item.id (if vmatch then "PASS" else "FAIL") item.language
      gtViolation extracted vmatch item.raw_response.data.length gt.level
      (similarity item.input.data gt.input.data)

/-- A `failed_extraction_cases` entry (`extract_violation_type`, NO_MATCH
branch).  `pattern_used` holds `strategy_regex_patterns.get(strategy)`
(no default, hence `Option`), represented by the `Pat` rule instead of the
regex source string. -/
structure FailedCase where
  id : Int
  model : String
  strategy : String
  language : String
  expected_violation : String
  reason : String
  pattern_used : Option Pat
  raw_response : String
  input_code : String
  folder_source : String
deriving DecidableEq, Repr

/-- A `multiple_violations_cases` entry (multiple-candidates branch). -/
structure MultipleCase where
  id : Int
  model : String
  strategy : String
  language : String
  expected_violation : String
  all_violations_found : List String
  reason : String
  pattern_used : Option Pat
  raw_response : String
  input_code : String
  folder_source : String
deriving DecidableEq, Repr

/-- The comparator-instance side channels: `failed_extraction_cases`,
`multiple_violations_cases`, and the `extracted_patterns['violations']
['detected']` list. -/
structure CompState where
  failed_extraction_cases : List FailedCase
  multiple_violations_cases : List MultipleCase
  detected_violations : List String
deriving DecidableEq, Repr

/-- The `folder_source` f-string of the side-channel entries. -/
def folderSource (item : OutputItem) (strategy : String) : String :=
  strLower item.violation_type ++ "--" ++ item.model ++ "--" ++ strategy

/-- The NO_MATCH side-channel record built by `extract_violation_type`
(full context: raw response, input code, pattern used, reason). -/
def mkFailedCase (item : OutputItem) (strategy : String) (text : String)
    (table : String → Option Pat) : FailedCase :=
  { id := item.id
    model := item.model
    strategy := strategy
    language := item.language
    expected_violation := strUpper item.violation_type
    reason := "NO_MATCH"
    pattern_used := table strategy
    raw_response := text
    input_code := item.input
    folder_source := folderSource item strategy }

/-- The multiple-candidates side-channel record built by
`extract_violation_type`; the `reason` string differs between the two
scripts and is passed in. -/
def mkMultipleCase (item : OutputItem) (strategy : String) (text : String)
    (table : String → Option Pat) (reason : String) (vs : List String) : MultipleCase :=
  { id := item.id
    model := item.model
    strategy := strategy
    language := item.language
    expected_violation := strUpper item.violation_type
    all_violations_found := vs
    reason := reason
    pattern_used := table strategy
    raw_response := text
    input_code := item.input
    folder_source := folderSource item strategy }

/-- `extract_violation_type` of `src/reprocess_dip/violation_comparison.py`
(lines 129-171): no candidate → `None` plus a NO_MATCH entry; more than one
unique candidate → `None` plus a `MULTIPLE_UNIQUE_VIOLATIONS` entry; exactly
one → that label, appended to the detected-violations accumulator. -/
def reprocessExtractViolationType (text : String) (strategy : String)
    (item : OutputItem) (st : CompState) : Option String × CompState :=
  match reprocessExtract text strategy with
  | [] =>
    (none, { st with failed_extraction_cases :=
      st.failed_extraction_cases ++ [mkFailedCase item strategy text reprocessPatternTable] })
  | [v] =>
    (some v, { st with detected_violations := st.detected_violations ++ [v] })
  | v :: w :: rest =>
    (none, { st with multiple_violations_cases :=
      st.multiple_violations_cases ++
        [mkMultipleCase item strategy text reprocessPatternTable
          "MULTIPLE_UNIQUE_VIOLATIONS" (v :: w :: rest)] })

/-- `extract_violation_type` of `src/vio_compare_t2.py` (lines 135-177):
identical control flow, but over the non-deduplicated candidate list and
with reason string `MULTIPLE_VIOLATIONS`. -/
def t2ExtractViolationType (text : String) (strategy : String)
    (item : OutputItem) (st : CompState) : Option String × CompState :=
  match t2Extract text strategy with
  | [] =>
    (none, { st with failed_extraction_cases :=
      st.failed_extraction_cases ++ [mkFailedCase item strategy text t2PatternTable] })
  | [v] =>
    (some v, { st with detected_violations := st.detected_violations ++ [v] })
  | v :: w :: rest =>
    (none, { st with multiple_violations_cases :=
      st.multiple_violations_cases ++
        [mkMultipleCase item strategy text t2PatternTable
          "MULTIPLE_VIOLATIONS" (v :: w :: rest)] })

/-- Result dictionary of `compare_single_output` in the strategy-based
scripts (`reprocess_dip/violation_comparison.py` lines 270-332 and
`vio_compare_t2.py` lines 349-411).  The `code_blocks` /
`language_analysis` / `violation_analysis` reporting fields are omitted: no
claim refers to them and they do not influence the status. -/
structure RResult where
  id : Int
  status : String
  language : String
  expected_violation : String
  detected_violation : Option String
  violation_match : Bool
  failure_reason : Option String
  response_length : Nat
  model : String
  strategy : String
deriving DecidableEq, Repr

/-- `compare_single_output` of the strategy-based scripts, parameterized by
the script's `extract_violation_type`: the self-declared `violation_type`
field is the expected label; a failed extraction yields the FAIL /
`EXTRACTION_FAILED` dictionary, otherwise the detected label is compared
with the expected one. -/
def strategyCompareSingle
    (extractVT : String → String → OutputItem → CompState → Option String × CompState)
    (item : OutputItem) (strategy : String) (st : CompState) : RResult × CompState :=
  let expected := strUpper item.violation_type
  match extractVT item.raw_response strategy item st with
  | (none, st2) =>
    ({ id := item.id
       status := "FAIL"
       language := item.language
       expected_violation := expected
       detected_violation := none
       violation_match := false
       failure_reason := some "EXTRACTION_FAILED"
       response_length := item.raw_response.data.length
       model := item.model
       strategy := strategy }, st2)
  | (some v, st2) =>
    ({ id := item.id
       status := if v = expected then "PASS" else "FAIL"
       language := item.language
       expected_violation := expected
       detected_violation := some v
       violation_match := v = expected
       failure_reason := if v = expected then none else some "WRONG_VIOLATION"
       response_length := item.raw_response.data.length
       model := item.model
       strategy := strategy }, st2)

/-- `compare_single_output` of `src/reprocess_dip/violation_comparison.py`. -/
def reprocessCompareSingle (item : OutputItem) (strategy : String)
    (st : CompState) : RResult × CompState :=
  strategyCompareSingle reprocessExtractViolationType item strategy st

/-- `compare_single_output` of `src/vio_compare_t2.py`. -/
def t2CompareSingle (item : OutputItem) (strategy : String)
    (st : CompState) : RResult × CompState :=
  strategyCompareSingle t2ExtractViolationType item strategy st

/-- The per-record loop of `process_violation_type`: fold
`compare_single_output` over the group, accumulating results in order and
threading the comparator state. -/
def processItems
    (compareSingle : OutputItem → String → CompState → RResult × CompState)
    (items : List OutputItem) (strategy : String) (st : CompState) :
    List RResult × CompState :=
  items.foldl (fun acc item =>
    ((acc.1 ++ [(compareSingle item strategy acc.2).1]),
      (compareSingle item strategy acc.2).2)) ([], st)

/-- The per-violation-type `stats` block of `process_violation_type`
(`reprocess_dip/violation_comparison.py` lines 334-370, `vio_compare_t2.py`
lines 413-449): counts of each status over the result list and
`accuracy = pass_count / len(violation_results) if violation_results else 0`. -/
structure VStats where
  total : Nat
  pass : Nat
  fail : Nat
  error : Nat
  accuracy : ℚ
deriving DecidableEq, Repr

/-- Computes the `stats` block from the collected per-record results. -/
def computeStats (rs : List RResult) : VStats :=
  { total := rs.length
    pass := (rs.filter (fun r => r.status = "PASS")).length
    fail := (rs.filter (fun r => r.status = "FAIL")).length
    error := (rs.filter (fun r => r.status = "ERROR")).length
    accuracy := if rs.length = 0 then 0
      else mkRat ((rs.filter (fun r => r.status = "PASS")).length) rs.length }

/-- `process_violation_type` of `src/reprocess_dip/violation_comparison.py`,
restricted to its per-group outputs: the result list and its stats block. -/
def reprocessProcessViolationType (items : List OutputItem) (strategy : String)
    (st : CompState) : List RResult × VStats :=
  ((processItems reprocessCompareSingle items strategy st).1,
    computeStats (processItems reprocessCompareSingle items strategy st).1)

/-- `process_violation_type` of `src/vio_compare_t2.py`, likewise. -/
def t2ProcessViolationType (items : List OutputItem) (strategy : String)
    (st : CompState) : List RResult × VStats :=
  ((processItems t2CompareSingle items strategy st).1,
    computeStats (processItems t2CompareSingle items strategy st).1)

/-! ### Concrete fixtures used by the theorems below -/

/-- A fresh comparator state (lists start empty in `__init__`). -/
def emptyState : CompState :=
  { failed_extraction_cases := []
    multiple_violations_cases := []
    detected_violations := [] }

/-- A response mentioning the same label twice in the recognized pattern. -/
def dupResponse : String := "**SRP** stated once and **SRP** again"

/-- A sample output record carrying `dupResponse`. -/
def sampleItem : OutputItem :=
  { id := 7
    model := "modelA"
    language := "java"
    violation_type := "dip"
    input := "class Sample"
    raw_response := dupResponse }

/-- An output record builder for the aggregation scenario: `violation_type`
`dip`, varying id and response. -/
def scenItem (i : Int) (response : String) : OutputItem :=
  { id := i
    model := "modelA"
    language := "java"
    violation_type := "dip"
    input := "class Sample"
    raw_response := response }

/-- The ten-record scenario of the aggregation claim: three responses with no
recognizable label, two with two distinct labels, four correct, one wrong. -/
def scenarioItems : List OutputItem :=
  [scenItem 1 "no label at all",
   scenItem 2 "still nothing",
   scenItem 3 "empty again",
   scenItem 4 "**SRP** but also **OCP**",
   scenItem 5 "**LSP** and **ISP**",
   scenItem 6 "**DIP** correct",
   scenItem 7 "**DIP** correct",
   scenItem 8 "**DIP** correct",
   scenItem 9 "**DIP** correct",
   scenItem 10 "**SRP** wrong"]

/-- Ground-truth record whose input is close to, but not equal to,
`"0123456789"` (similarity `20/21 > 0.9`). -/
def gtFuzzy : GTRecord :=
  { input := "0123456789x", violation := "DIP", level := "easy" }

/-- Ground-truth record whose input is exactly `"0123456789"`. -/
def gtExact : GTRecord :=
  { input := "0123456789", violation := "DIP", level := "easy" }

/-- Ground-truth record at similarity exactly `9/10` from
`"abcdefghiw"`: nine matching characters out of `10 + 10`. -/
def gtBoundary : GTRecord :=
  { input := "abcdefghiz", violation := "DIP", level := "easy" }

/-- `n` pairwise-distinct characters starting at code point `base`. -/
def distinctChars (base n : Nat) : List Char :=
  (List.range n).map (fun k => Char.ofNat (base + k))

/-- A 100-character snippet: 91 shared characters then 9 of its own. -/
def long91b : String := String.mk (distinctChars 1000 91 ++ distinctChars 2000 9)

/-- A 100-character ground-truth input: the same 91 shared characters then 9
different ones; the single matching block has size 91, so the similarity to
`long91b` is `2*91/(100+100) = 91/100 = 0.91` exactly. -/
def gt91 : GTRecord :=
  { input := String.mk (distinctChars 1000 91 ++ distinctChars 3000 9)
    violation := "DIP", level := "easy" }

/-! ## Theorems

First, supporting lemmas; then one theorem per claim (with a witness where
the theorem carries hypotheses). -/

/-- `runLen` never exceeds either list's length. -/
theorem runLen_le (x y : List Char) : runLen x y ≤ x.length ∧ runLen x y ≤ y.length := by
  induction x generalizing y with
  | nil => cases y <;> simp [runLen]
  | cons c cs ih =>
    cases y with
    | nil => simp [runLen]
    | cons d ds =>
      by_cases h : c = d
      · have := ih ds
        simp only [runLen, h, if_true, List.length_cons]
        omega
      · simp [runLen, h]

/-- The block found by `findLongestBlock` lies within both lists.  (This is
the fact that makes the fuel `a.length + b.length` of `matchingSize`
sufficient: both recursive calls of the block decomposition strictly
decrease that sum whenever the block is nonempty.) -/
theorem findLongestBlock_bounds (a b : List Char) :
    (findLongestBlock a b).1 + (findLongestBlock a b).2.2 ≤ a.length ∧
      (findLongestBlock a b).2.1 + (findLongestBlock a b).2.2 ≤ b.length := by
  have hcmp : ∀ x y : Nat × Nat × Nat,
      (x.1 + x.2.2 ≤ a.length ∧ x.2.1 + x.2.2 ≤ b.length) →
      (y.1 + y.2.2 ≤ a.length ∧ y.2.1 + y.2.2 ≤ b.length) →
      ((flmCmp x y).1 + (flmCmp x y).2.2 ≤ a.length ∧
       (flmCmp x y).2.1 + (flmCmp x y).2.2 ≤ b.length) := by
    intro x y hx hy
    unfold flmCmp
    split
    · exact hy
    · exact hx
  have hdiag : ∀ (xs ys : List Char) (skip i j : Nat),
      i + xs.length ≤ a.length → j + ys.length ≤ b.length →
      ((diagBestGo skip i j xs ys).1 + (diagBestGo skip i j xs ys).2.2 ≤ a.length ∧
       (diagBestGo skip i j xs ys).2.1 + (diagBestGo skip i j xs ys).2.2 ≤ b.length) := by
    intro xs
    induction xs with
    | nil => intro ys skip i j _ _; cases ys <;> simp [diagBestGo]
    | cons x xs ih =>
      intro ys skip i j h1 h2
      cases ys with
      | nil => simp [diagBestGo]
      | cons y ys =>
        rw [List.length_cons] at h1 h2
        cases skip with
        | succ s =>
          simp only [diagBestGo]
          exact ih ys s (i + 1) (j + 1) (by omega) (by omega)
        | zero =>
          by_cases hxy : x = y
          · simp only [diagBestGo, if_pos hxy]
            apply hcmp
            · have hr1 := (runLen_le (x :: xs) (y :: ys)).1
              have hr2 := (runLen_le (x :: xs) (y :: ys)).2
              rw [List.length_cons] at hr1 hr2
              exact ⟨by simp only []; omega, by simp only []; omega⟩
            · exact ih ys _ (i + 1) (j + 1) (by omega) (by omega)
          · simp only [diagBestGo, if_neg hxy]
            exact ih ys 0 (i + 1) (j + 1) (by omega) (by omega)
  have hpair : ∀ (n : Nat) (l : List (Nat × Nat × Nat)), l.length ≤ n →
      (∀ t ∈ l, t.1 + t.2.2 ≤ a.length ∧ t.2.1 + t.2.2 ≤ b.length) →
      ∀ t ∈ pairPass l, t.1 + t.2.2 ≤ a.length ∧ t.2.1 + t.2.2 ≤ b.length := by
    intro n
    induction n with
    | zero =>
      intro l hl h t ht
      cases l with
      | nil => simp [pairPass] at ht
      | cons x xs => simp at hl
    | succ n ih =>
      intro l hl h t ht
      match l, ht with
      | [], ht => simp [pairPass] at ht
      | [x], ht =>
        rw [show pairPass [x] = [x] from rfl] at ht
        exact h t ht
      | x :: y :: r, ht =>
        rw [show pairPass (x :: y :: r) = flmCmp x y :: pairPass r from rfl] at ht
        rcases List.mem_cons.mp ht with rfl | ht
        · exact hcmp x y (h x (by simp)) (h y (by simp))
        · refine ih r ?_ (fun u hu => h u (by simp [hu])) t ht
          simp only [List.length_cons] at hl
          omega
  have hred : ∀ (fuel : Nat) (l : List (Nat × Nat × Nat)),
      (∀ t ∈ l, t.1 + t.2.2 ≤ a.length ∧ t.2.1 + t.2.2 ≤ b.length) →
      ((reduceBest fuel l).1 + (reduceBest fuel l).2.2 ≤ a.length ∧
       (reduceBest fuel l).2.1 + (reduceBest fuel l).2.2 ≤ b.length) := by
    intro fuel
    induction fuel with
    | zero =>
      intro l h
      match l with
      | [] => simp [reduceBest]
      | [x] => simpa [reduceBest] using h x (by simp)
      | x :: y :: r => simpa [reduceBest] using h x (by simp)
    | succ fuel ih =>
      intro l h
      match l with
      | [] => simp [reduceBest]
      | [x] => simpa [reduceBest] using h x (by simp)
      | x :: y :: r =>
        rw [show reduceBest (fuel + 1) (x :: y :: r) =
          reduceBest fuel (pairPass (x :: y :: r)) from rfl]
        exact ih _ (fun t ht => hpair (x :: y :: r).length _ le_rfl h t ht)
  rw [findLongestBlock]
  apply hred
  intro t ht
  rcases List.mem_append.mp ht with ht | ht
  · rcases List.mem_map.mp ht with ⟨i, hi, rfl⟩
    have hi' : i < a.length := List.mem_range.mp hi
    exact hdiag (a.drop i) b 0 i 0 (by rw [List.length_drop]; omega) (by omega)
  · rcases List.mem_map.mp ht with ⟨j, hj, rfl⟩
    have hj' : j < b.length := List.mem_range.mp hj
    exact hdiag a (b.drop j) 0 0 j (by omega) (by rw [List.length_drop]; omega)

/-- Membership is preserved by the set-accumulation fold. -/
theorem mem_setList {x : String} {l : List String} : x ∈ setList l ↔ x ∈ l := by
  have go : ∀ (l acc : List String),
      x ∈ l.foldl (fun acc y => if y ∈ acc then acc else acc ++ [y]) acc ↔
        (x ∈ acc ∨ x ∈ l) := by
    intro l
    induction l with
    | nil => intro acc; simp
    | cons y ys ih =>
      intro acc
      simp only [List.foldl_cons]
      by_cases hy : y ∈ acc
      · rw [if_pos hy, ih]
        constructor
        · rintro (h | h)
          · exact Or.inl h
          · exact Or.inr (List.mem_cons_of_mem _ h)
        · rintro (h | h)
          · exact Or.inl h
          · rcases List.mem_cons.mp h with rfl | h
            · exact Or.inl hy
            · exact Or.inr h
      · rw [if_neg hy, ih]
        constructor
        · rintro (h | h)
          · rcases List.mem_append.mp h with h | h
            · exact Or.inl h
            · simp at h
              exact Or.inr (h ▸ List.mem_cons_self _ _)
          · exact Or.inr (List.mem_cons_of_mem _ h)
        · rintro (h | h)
          · exact Or.inl (List.mem_append.mpr (Or.inl h))
          · rcases List.mem_cons.mp h with rfl | h
            · exact Or.inl (List.mem_append.mpr (Or.inr (by simp)))
            · exact Or.inr h
  rw [setList, go]
  simp

/-- The set-accumulation fold never stores duplicates. -/
theorem setList_nodup (l : List String) : (setList l).Nodup := by
  have go : ∀ (l acc : List String), acc.Nodup →
      (l.foldl (fun acc y => if y ∈ acc then acc else acc ++ [y]) acc).Nodup := by
    intro l
    induction l with
    | nil => intro acc h; simpa using h
    | cons y ys ih =>
      intro acc h
      simp only [List.foldl_cons]
      by_cases hy : y ∈ acc
      · rw [if_pos hy]; exact ih _ h
      · rw [if_neg hy]
        refine ih _ ?_
        simpa [List.nodup_append] using ⟨h, hy⟩
  exact go l [] List.nodup_nil

/-- C1: in `src/vio_compare_t2.py` a response whose recognized pattern
mentions the same valid label twice yields TWO candidates, so
`extract_violation_type` files it under `MULTIPLE_VIOLATIONS` and
`compare_single_output` returns FAIL — against the claim (and the spec's
de-duplicate-then-count contract, which `reprocess_dip` implements: there the
same response yields the single candidate `SRP`). -/
theorem c1_t2_duplicate_label_counted_twice :
    t2Extract dupResponse "example" = ["SRP", "SRP"] ∧
    (t2ExtractViolationType dupResponse "example" sampleItem emptyState).1 = none ∧
    (t2ExtractViolationType dupResponse "example" sampleItem emptyState).2.multiple_violations_cases =
      [mkMultipleCase sampleItem "example" dupResponse t2PatternTable
        "MULTIPLE_VIOLATIONS" ["SRP", "SRP"]] ∧
    (t2CompareSingle sampleItem "example" emptyState).1.status = "FAIL" ∧
    (t2CompareSingle sampleItem "example" emptyState).1.detected_violation = none ∧
    reprocessExtract dupResponse "example" = ["SRP"] ∧
    (reprocessExtractViolationType dupResponse "example" sampleItem emptyState).1 = some "SRP" := by
  decide

/-- C2 counterexample: the extractor of
`src/analytic_reports_trials/violations_comparison.py` returns the label
`XYZ` — outside the closed vocabulary — for the response `**XYZ**`. -/
theorem c2_analytic_returns_nonvocab_label :
    analyticExtract "**XYZ**" = some "XYZ" ∧ "XYZ" ∉ validLabels := by
  decide

/-- C2 amended: the strategy-based extractors
(`extract_violations_by_strategy` of `reprocess_dip` and `vio_compare_t2`)
never return a label outside the closed vocabulary, for any text and any
strategy: every lexical match is validated before being kept. -/
theorem c2_strategy_extractors_closed_vocab :
    (∀ (text strategy l : String), l ∈ reprocessExtract text strategy → l ∈ validLabels) ∧
    (∀ (text strategy l : String), l ∈ t2Extract text strategy → l ∈ validLabels) := by
  constructor
  · intro text strategy l hl
    rw [reprocessExtract, mem_setList] at hl
    simpa using (List.mem_filter.mp hl).2
  · intro text strategy l hl
    rw [t2Extract] at hl
    simpa using (List.mem_filter.mp hl).2

/-- C2 witness: instantiating the closed-vocabulary theorem at a concrete
extraction. -/
theorem c2_closed_vocab_witness : "SRP" ∈ validLabels :=
  c2_strategy_extractors_closed_vocab.1 "**SRP**" "example" "SRP" (by decide)

/-- C7: both `compare_single_output` variants are total and always produce a
result whose status is `PASS`, `FAIL` or `ERROR`, for any record, strategy,
comparator state and ground-truth pool. -/
theorem c7_status_closed_set (item : OutputItem) (strategy : String)
    (st : CompState) (gts : List GTRecord) :
    ((reprocessCompareSingle item strategy st).1.status = "PASS" ∨
     (reprocessCompareSingle item strategy st).1.status = "FAIL" ∨
     (reprocessCompareSingle item strategy st).1.status = "ERROR") ∧
    ((analyticCompareSingle item gts).status = "PASS" ∨
     (analyticCompareSingle item gts).status = "FAIL" ∨
     (analyticCompareSingle item gts).status = "ERROR") := by
  constructor
  · rcases hx : reprocessExtractViolationType item.raw_response strategy item st with ⟨ov, st2⟩
    cases ov with
    | none =>
      simp [reprocessCompareSingle, strategyCompareSingle, hx]
    | some v =>
      by_cases hv : v = strUpper item.violation_type <;>
        simp [reprocessCompareSingle, strategyCompareSingle, hx, hv]
  · cases hg : find_ground_truth_by_input item.input gts with
    | none => simp [analyticCompareSingle, hg, AResult.status]
    | some gt =>
      by_cases hv : analyticExtract item.raw_response = some (strUpper gt.violation) <;>
        simp [analyticCompareSingle, hg, AResult.status, hv]

/-- C10: an unrecognized strategy string falls back, through `dict.get`'s
default, to the `default` keyword rule in both strategy-based scripts, and
extraction is total (no error): the candidate list equals the one computed
under the `default` strategy. -/
theorem c10_unknown_strategy_default (strategy : String)
    (h : strategy ∉ (["default", "ensemble", "example", "smell"] : List String))
    (text : String) :
    reprocessExtract text strategy = reprocessExtract text "default" ∧
      t2Extract text strategy = t2Extract text "default" := by
  simp only [List.mem_cons, List.not_mem_nil, or_false, not_or] at h
  obtain ⟨h1, h2, h3, h4⟩ := h
  constructor
  · rw [reprocessExtract, reprocessExtract, reprocessRawScan, reprocessRawScan,
      reprocessPatternTable, reprocessPatternTable]
    simp [h1, h2, h3, h4, scanWith]
  · rw [t2Extract, t2Extract, t2RawScan, t2RawScan, t2PatternTable, t2PatternTable]
    simp [h1, h2, h3, h4, scanWith]

/-- C10 witness: the unrecognized strategy `cot` extracts exactly as
`default` does on a concrete response. -/
theorem c10_unknown_strategy_witness :
    reprocessExtract "**SRP** and DIP here" "cot" =
        reprocessExtract "**SRP** and DIP here" "default" ∧
      t2Extract "**SRP** and DIP here" "cot" =
        t2Extract "**SRP** and DIP here" "default" :=
  c10_unknown_strategy_default "cot" (by decide) "**SRP** and DIP here"

set_option maxRecDepth 4000 in
/-- C3 counterexample: the pool holds a fuzzy candidate (similarity
`20/21 ≈ 0.95`) before a byte-for-byte exact match; the lookup returns the
earlier fuzzy candidate, not the exact one, because the loop tests pool
records in order and returns on the first rule hit — position does matter. -/
theorem c3_earlier_fuzzy_beats_later_exact :
    find_ground_truth_by_input "0123456789" [gtFuzzy, gtExact] = some gtFuzzy ∧
    gtFuzzy ≠ gtExact ∧
    "0123456789" = gtExact.input ∧
    similarity (stripChars "0123456789".data) (stripChars gtFuzzy.input.data) =
      mkRat 20 21 ∧
    fuzzyThreshold < similarity (stripChars "0123456789".data)
      (stripChars gtFuzzy.input.data) := by
  decide

/-- C3 amended: within each candidate the rule order is fixed (exact, then
whitespace-normalized, then fuzzy), but candidates are scanned in pool
order and the first candidate satisfying any rule wins; the exactly-equal
record is therefore returned whenever no earlier pool record satisfies any
of the three rules (in particular whenever it comes first), while an
earlier fuzzy-matching record wins over a later exact match. -/
theorem c3_exact_wins_when_no_earlier_rule_hit (out : String)
    (pre post : List GTRecord) (gt : GTRecord)
    (hpre : ∀ g ∈ pre, gtRuleHit (stripChars out.data) (stripChars g.input.data) = false)
    (hexact : stripChars out.data = stripChars gt.input.data) :
    find_ground_truth_by_input out (pre ++ gt :: post) = some gt := by
  rw [find_ground_truth_by_input]
  induction pre with
  | nil =>
    rw [List.nil_append, List.find?_cons_of_pos]
    simp [gtRuleHit, hexact]
  | cons g gs ih =>
    rw [List.cons_append, List.find?_cons_of_neg]
    · exact ih (fun g' hg' => hpre g' (List.mem_cons_of_mem _ hg'))
    · simp [hpre g (List.mem_cons_self _ _)]

set_option maxRecDepth 4000 in
/-- C3 witness: with a non-matching record first, the exact record is found
even though a fuzzy-matching record follows it. -/
theorem c3_exact_wins_witness :
    find_ground_truth_by_input "0123456789"
      ([{ input := "zzzz", violation := "DIP", level := "easy" }] ++
        gtExact :: [gtFuzzy]) = some gtExact :=
  c3_exact_wins_when_no_earlier_rule_hit "0123456789"
    [{ input := "zzzz", violation := "DIP", level := "easy" }] [gtFuzzy] gtExact
    (by decide) (by decide)

set_option maxRecDepth 4000 in
/-- C4: with neither the exact nor the whitespace-normalized rule applying to
a candidate, the per-candidate test succeeds exactly when the similarity is
strictly greater than the threshold `0.9`; a candidate at similarity exactly
`9/10` is not matched, and a candidate at similarity exactly `91/100 = 0.91`
is matched (`mkRat 9 10` and `mkRat 91 100` are the rationals `0.9` and
`0.91`). -/
theorem c4_fuzzy_threshold_strict :
    (∀ o g : List Char, o ≠ g → normWS o ≠ normWS g →
      (gtRuleHit o g = true ↔ fuzzyThreshold < similarity o g)) ∧
    fuzzyThreshold = mkRat 9 10 ∧
    similarity (stripChars "abcdefghiw".data) (stripChars gtBoundary.input.data) =
      mkRat 9 10 ∧
    find_ground_truth_by_input "abcdefghiw" [gtBoundary] = none ∧
    similarity (stripChars long91b.data) (stripChars gt91.input.data) =
      mkRat 91 100 ∧
    find_ground_truth_by_input long91b [gt91] = some gt91 := by
  refine ⟨?_, rfl, by decide, by decide, by decide, by decide⟩
  intro o g ho hn
  simp [gtRuleHit, ho, hn]

set_option maxRecDepth 4000 in
/-- C4 witness: the threshold equivalence applied to the `0.91` pair. -/
theorem c4_fuzzy_threshold_witness :
    gtRuleHit (stripChars long91b.data) (stripChars gt91.input.data) = true :=
  (c4_fuzzy_threshold_strict.1 (stripChars long91b.data) (stripChars gt91.input.data)
    (by decide) (by decide)).mpr (by decide)

/-- C5: when no ground-truth record satisfies any of the three matching
rules, `compare_single_output` of the external-pool script returns exactly
the early ERROR dictionary — status `ERROR` (never `FAIL`) with message
`No matching ground truth found` — and nothing else: no label comparison
and no secondary analysis fields are produced for that record. -/
theorem c5_unmatched_ground_truth_error (item : OutputItem) (gts : List GTRecord)
    (h : ∀ gt ∈ gts,
      gtRuleHit (stripChars item.input.data) (stripChars gt.input.data) = false) :
    analyticCompareSingle item gts =
      .gtError item.id "No matching ground truth found" item.language ∧
    (analyticCompareSingle item gts).status = "ERROR" ∧
    (analyticCompareSingle item gts).status ≠ "FAIL" := by
  have hfind : find_ground_truth_by_input item.input gts = none := by
    rw [find_ground_truth_by_input]
    rw [List.find?_eq_none]
    intro gt hgt
    simp [h gt hgt]
  refine ⟨?_, ?_, ?_⟩ <;> simp [analyticCompareSingle, hfind, AResult.status]

/-- C5 witness: a concrete record with no resolvable ground truth is
classified ERROR. -/
theorem c5_unmatched_ground_truth_witness :
    analyticCompareSingle
        { id := 3, model := "modelA", language := "java", violation_type := "dip",
          input := "abc", raw_response := "**DIP**" }
        [{ input := "zzzzzzzz", violation := "DIP", level := "easy" }] =
      .gtError 3 "No matching ground truth found" "java" :=
  (c5_unmatched_ground_truth_error
    { id := 3, model := "modelA", language := "java", violation_type := "dip",
      input := "abc", raw_response := "**DIP**" }
    [{ input := "zzzzzzzz", violation := "DIP", level := "easy" }]
    (by decide)).1

/-- C6: in `reprocess_dip`'s `compare_single_output`, an empty candidate set
(NO_MATCH) yields status FAIL with a null detected label and appends the
full-context record (raw response, input code, pattern used, reason) to
`failed_extraction_cases`; more than one distinct candidate yields status
FAIL with a null detected label and appends the full-context record (with
the candidate list) to `multiple_violations_cases`.  The other side channel
is untouched in each case. -/
theorem c6_extraction_failure_side_channels (item : OutputItem)
    (strategy : String) (st : CompState) :
    (reprocessExtract item.raw_response strategy = [] →
      (reprocessCompareSingle item strategy st).1.status = "FAIL" ∧
      (reprocessCompareSingle item strategy st).1.detected_violation = none ∧
      (reprocessCompareSingle item strategy st).1.failure_reason =
        some "EXTRACTION_FAILED" ∧
      (reprocessCompareSingle item strategy st).2.failed_extraction_cases =
        st.failed_extraction_cases ++
          [mkFailedCase item strategy item.raw_response reprocessPatternTable] ∧
      (reprocessCompareSingle item strategy st).2.multiple_violations_cases =
        st.multiple_violations_cases) ∧
    (2 ≤ (reprocessExtract item.raw_response strategy).length →
      (reprocessCompareSingle item strategy st).1.status = "FAIL" ∧
      (reprocessCompareSingle item strategy st).1.detected_violation = none ∧
      (reprocessCompareSingle item strategy st).1.failure_reason =
        some "EXTRACTION_FAILED" ∧
      (reprocessCompareSingle item strategy st).2.multiple_violations_cases =
        st.multiple_violations_cases ++
          [mkMultipleCase item strategy item.raw_response reprocessPatternTable
            "MULTIPLE_UNIQUE_VIOLATIONS"
            (reprocessExtract item.raw_response strategy)] ∧
      (reprocessCompareSingle item strategy st).2.failed_extraction_cases =
        st.failed_extraction_cases) := by
  constructor
  · intro h
    simp [reprocessCompareSingle, strategyCompareSingle,
      reprocessExtractViolationType, h]
  · intro h
    rcases hx : reprocessExtract item.raw_response strategy with _ | ⟨v, rest⟩
    · rw [hx] at h; simp at h
    · rcases rest with _ | ⟨w, rest2⟩
      · rw [hx] at h; simp at h
      · simp [reprocessCompareSingle, strategyCompareSingle,
          reprocessExtractViolationType, hx]

/-- C6 witness: both failure branches exercised on concrete records — one
response with no recognizable label, one with two distinct labels. -/
theorem c6_extraction_failure_witness :
    ((reprocessCompareSingle (scenItem 1 "no label at all") "example"
        emptyState).1.status = "FAIL" ∧
      (reprocessCompareSingle (scenItem 1 "no label at all") "example"
        emptyState).1.detected_violation = none ∧
      (reprocessCompareSingle (scenItem 1 "no label at all") "example"
        emptyState).1.failure_reason = some "EXTRACTION_FAILED" ∧
      (reprocessCompareSingle (scenItem 1 "no label at all") "example"
        emptyState).2.failed_extraction_cases =
        emptyState.failed_extraction_cases ++
          [mkFailedCase (scenItem 1 "no label at all") "example"
            (scenItem 1 "no label at all").raw_response reprocessPatternTable] ∧
      (reprocessCompareSingle (scenItem 1 "no label at all") "example"
        emptyState).2.multiple_violations_cases =
        emptyState.multiple_violations_cases) ∧
    ((reprocessCompareSingle (scenItem 4 "**SRP** but also **OCP**") "example"
        emptyState).1.status = "FAIL" ∧
      (reprocessCompareSingle (scenItem 4 "**SRP** but also **OCP**") "example"
        emptyState).1.detected_violation = none ∧
      (reprocessCompareSingle (scenItem 4 "**SRP** but also **OCP**") "example"
        emptyState).1.failure_reason = some "EXTRACTION_FAILED" ∧
      (reprocessCompareSingle (scenItem 4 "**SRP** but also **OCP**") "example"
        emptyState).2.multiple_violations_cases =
        emptyState.multiple_violations_cases ++
          [mkMultipleCase (scenItem 4 "**SRP** but also **OCP**") "example"
            (scenItem 4 "**SRP** but also **OCP**").raw_response
            reprocessPatternTable "MULTIPLE_UNIQUE_VIOLATIONS"
            (reprocessExtract
              (scenItem 4 "**SRP** but also **OCP**").raw_response "example")] ∧
      (reprocessCompareSingle (scenItem 4 "**SRP** but also **OCP**") "example"
        emptyState).2.failed_extraction_cases =
        emptyState.failed_extraction_cases) :=
  ⟨(c6_extraction_failure_side_channels (scenItem 1 "no label at all")
      "example" emptyState).1 (by decide),
   (c6_extraction_failure_side_channels (scenItem 4 "**SRP** but also **OCP**")
      "example" emptyState).2 (by decide)⟩

/-- Both strategy-based `compare_single_output` variants only ever emit
status `PASS` or `FAIL` (the ERROR state exists only in the external-pool
script). -/
theorem strategyCompareSingle_status
    (f : String → String → OutputItem → CompState → Option String × CompState)
    (item : OutputItem) (strategy : String) (st : CompState) :
    (strategyCompareSingle f item strategy st).1.status = "PASS" ∨
      (strategyCompareSingle f item strategy st).1.status = "FAIL" := by
  rcases hx : f item.raw_response strategy item st with ⟨ov, st2⟩
  cases ov with
  | none => simp [strategyCompareSingle, hx]
  | some v =>
    by_cases hv : v = strUpper item.violation_type <;>
      simp [strategyCompareSingle, hx, hv]

/-- `reprocess_dip`'s per-record status is `PASS` or `FAIL`. -/
theorem reprocessCompareSingle_status (item : OutputItem) (strategy : String)
    (st : CompState) :
    (reprocessCompareSingle item strategy st).1.status = "PASS" ∨
      (reprocessCompareSingle item strategy st).1.status = "FAIL" :=
  strategyCompareSingle_status reprocessExtractViolationType item strategy st

/-- `vio_compare_t2`'s per-record status is `PASS` or `FAIL`. -/
theorem t2CompareSingle_status (item : OutputItem) (strategy : String)
    (st : CompState) :
    (t2CompareSingle item strategy st).1.status = "PASS" ∨
      (t2CompareSingle item strategy st).1.status = "FAIL" :=
  strategyCompareSingle_status t2ExtractViolationType item strategy st

/-- A list of results whose statuses lie in the `PASS`/`FAIL`/`ERROR` set is
partitioned by the three status filters. -/
theorem count_partition (rs : List RResult)
    (h : ∀ r ∈ rs, r.status = "PASS" ∨ r.status = "FAIL" ∨ r.status = "ERROR") :
    rs.length = (rs.filter (fun r => r.status = "PASS")).length +
      (rs.filter (fun r => r.status = "FAIL")).length +
      (rs.filter (fun r => r.status = "ERROR")).length := by
  induction rs with
  | nil => simp
  | cons r rs ih =>
    have hr := h r (List.mem_cons_self _ _)
    have ih' := ih (fun x hx => h x (List.mem_cons_of_mem _ hx))
    rcases hr with h1 | h1 | h1 <;>
      simp [List.filter_cons, h1] <;> omega

/-- Every result collected by the `process_violation_type` loop has a status
in the closed set, whenever the per-record comparison does. -/
theorem processItems_status_mem
    (cs : OutputItem → String → CompState → RResult × CompState)
    (hcs : ∀ item strategy st, (cs item strategy st).1.status = "PASS" ∨
      (cs item strategy st).1.status = "FAIL" ∨
      (cs item strategy st).1.status = "ERROR")
    (items : List OutputItem) (strategy : String) (st : CompState) :
    ∀ r ∈ (processItems cs items strategy st).1,
      r.status = "PASS" ∨ r.status = "FAIL" ∨ r.status = "ERROR" := by
  have go : ∀ (its : List OutputItem) (acc : List RResult × CompState),
      (∀ r ∈ acc.1, r.status = "PASS" ∨ r.status = "FAIL" ∨ r.status = "ERROR") →
      ∀ r ∈ (its.foldl (fun acc item =>
          ((acc.1 ++ [(cs item strategy acc.2).1]), (cs item strategy acc.2).2))
        acc).1,
        r.status = "PASS" ∨ r.status = "FAIL" ∨ r.status = "ERROR" := by
    intro its
    induction its with
    | nil => intro acc h r hr; exact h r hr
    | cons item its ih =>
      intro acc h r hr
      rw [List.foldl_cons] at hr
      refine ih _ ?_ r hr
      intro x hx
      rcases List.mem_append.mp hx with hx | hx
      · exact h x hx
      · simp only [List.mem_singleton] at hx
        subst hx
        exact hcs item strategy acc.2
  intro r hr
  rw [processItems] at hr
  exact go items ([], st) (by simp) r hr

/-- C8: in both strategy-based scripts the per-violation-type stats satisfy
`total = pass + fail + error` (every record's status is counted exactly
once) and `accuracy = pass / total` with ERROR records included in the
denominator (and `0` for an empty group); on the ten-record scenario — three
NO_MATCH responses, two with two distinct labels, four correct and one
wrong — the stats are `total = 10`, `pass = 4`, `fail = 6`, `error = 0`,
`accuracy = 2/5 = 0.4`. -/
theorem c8_stats_partition_and_accuracy :
    (∀ (items : List OutputItem) (strategy : String) (st : CompState),
      (reprocessProcessViolationType items strategy st).2.total =
        (reprocessProcessViolationType items strategy st).2.pass +
          (reprocessProcessViolationType items strategy st).2.fail +
          (reprocessProcessViolationType items strategy st).2.error ∧
      (reprocessProcessViolationType items strategy st).2.accuracy =
        (if (reprocessProcessViolationType items strategy st).2.total = 0 then 0
         else mkRat (reprocessProcessViolationType items strategy st).2.pass
          (reprocessProcessViolationType items strategy st).2.total)) ∧
    (∀ (items : List OutputItem) (strategy : String) (st : CompState),
      (t2ProcessViolationType items strategy st).2.total =
        (t2ProcessViolationType items strategy st).2.pass +
          (t2ProcessViolationType items strategy st).2.fail +
          (t2ProcessViolationType items strategy st).2.error ∧
      (t2ProcessViolationType items strategy st).2.accuracy =
        (if (t2ProcessViolationType items strategy st).2.total = 0 then 0
         else mkRat (t2ProcessViolationType items strategy st).2.pass
          (t2ProcessViolationType items strategy st).2.total)) ∧
    (reprocessProcessViolationType scenarioItems "example" emptyState).2 =
      ⟨10, 4, 6, 0, mkRat 2 5⟩ ∧
    (t2ProcessViolationType scenarioItems "example" emptyState).2 =
      ⟨10, 4, 6, 0, mkRat 2 5⟩ := by
  refine ⟨?_, ?_, by decide, by decide⟩
  · intro items strategy st
    refine ⟨?_, rfl⟩
    exact count_partition _ (processItems_status_mem reprocessCompareSingle
      (fun i s t => (reprocessCompareSingle_status i s t).imp id Or.inl)
      items strategy st)
  · intro items strategy st
    refine ⟨?_, rfl⟩
    exact count_partition _ (processItems_status_mem t2CompareSingle
      (fun i s t => (t2CompareSingle_status i s t).imp id Or.inl)
      items strategy st)

/-- C9 counterexample, one failure per conjunct.  (1) `vio_compare_t2`'s
ensemble pattern has no labeled-line alternative, so a response carrying only
`MOST IMPACTFUL VIOLATION: SRP` extracts nothing.  (2) In `reprocess_dip`,
`MOST IMPACTFUL VIOLATION: NONE` extracts nothing: the greedy `[A-Z]{2,3}`
group captures `NON` (there is no trailing context forcing the `NONE`
alternative), which fails validation.  (3) The scan is non-overlapping, so in
`**OCP***DIP**` the occurrence `**DIP**` — sharing one `*` with the match
`**OCP**` — is skipped and `DIP` is not extracted although it appears
wrapped in double asterisks. -/
theorem c9_ensemble_variant_gaps :
    t2Extract "MOST IMPACTFUL VIOLATION: SRP" "ensemble" = [] ∧
    reprocessExtract "MOST IMPACTFUL VIOLATION: NONE" "ensemble" = [] ∧
    reprocessExtract "**OCP***DIP**" "ensemble" = ["OCP"] ∧
    "SRP" ∈ validLabels ∧ "NONE" ∈ validLabels ∧ "DIP" ∈ validLabels := by
  decide

/-- `matchLitCI` consumes a verbatim copy of its literal. -/
theorem matchLitCI_append (p r : List Char) : matchLitCI p (p ++ r) = some r := by
  induction p with
  | nil => rfl
  | cons c cs ih => simp [matchLitCI, ih]

/-- `\s*` consumes an all-whitespace prefix entirely. -/
theorem countLeadingWS_append (ws r : List Char)
    (h : ∀ c ∈ ws, isSpaceChar c = true) :
    countLeadingWS (ws ++ r) = ws.length + countLeadingWS r := by
  induction ws with
  | nil => simp
  | cons c cs ih =>
    rw [List.cons_append]
    rw [show countLeadingWS (c :: (cs ++ r)) =
      (if isSpaceChar c then countLeadingWS (cs ++ r) + 1 else 0) from rfl]
    rw [if_pos (h c (List.mem_cons_self _ _))]
    rw [ih (fun x hx => h x (List.mem_cons_of_mem _ hx))]
    simp
    omega

/-- Neither ensemble alternative can match at a position whose character is
not `*` and not `M`/`m`. -/
theorem matchEnsembleAt_none_head (c : Char) (t : List Char)
    (hstar : c ≠ '*') (hm : c.toLower ≠ 'm') :
    matchEnsembleAt (c :: t) = none := by
  have hlit : matchLitCI mostLit (c :: t) = none := by
    rw [show mostLit = 'M' :: "OST IMPACTFUL VIOLATION:".data from rfl]
    rw [show matchLitCI ('M' :: "OST IMPACTFUL VIOLATION:".data) (c :: t) =
      (if c.toLower = 'M'.toLower then
        matchLitCI "OST IMPACTFUL VIOLATION:".data t else none) from rfl]
    rw [if_neg (by simpa using hm)]
  have hmost : matchMostAt (c :: t) = none := by
    rw [matchMostAt, hlit]
  rw [matchEnsembleAt, hmost]
  cases t with
  | nil => rfl
  | cons c2 t2 =>
    rw [show matchBoldAt (c :: c2 :: t2) =
      (if c = '*' ∧ c2 = '*' then
        (matchBoldBody t2).map (fun p => (p.1, p.2 + 2)) else none) from rfl]
    rw [if_neg (by simp [hstar])]

/-- The ensemble scan ignores a prefix free of `*` and of `M`/`m`: no match
can start inside it. -/
theorem ensembleScanGo_clean_prefix (u rest : List Char)
    (hu : ∀ c ∈ u, c ≠ '*' ∧ c.toLower ≠ 'm') :
    ensembleScanGo 0 (u ++ rest) = ensembleScanGo 0 rest := by
  induction u with
  | nil => rfl
  | cons c cs ih =>
    have hc := hu c (List.mem_cons_self _ _)
    rw [List.cons_append]
    rw [show ensembleScanGo 0 (c :: (cs ++ rest)) =
      (match matchEnsembleAt (c :: (cs ++ rest)) with
        | some (cap, n) => String.mk cap :: ensembleScanGo (n - 1) (cs ++ rest)
        | none => ensembleScanGo 0 (cs ++ rest)) from rfl]
    rw [matchEnsembleAt_none_head c (cs ++ rest) hc.1 hc.2]
    exact ih (fun x hx => hu x (List.mem_cons_of_mem _ hx))

/-- The labeled-line alternative at its own start: the literal, a whitespace
run, then three letter characters, captures exactly those three letters
(no trailing context is required). -/
theorem matchMostAt_boundary (ws v : List Char) (a b c : Char)
    (hws : ∀ x ∈ ws, isSpaceChar x = true)
    (ha : isLetterAZ a = true) (hb : isLetterAZ b = true)
    (hc : isLetterAZ c = true) (hna : isSpaceChar a = false) :
    matchMostAt (mostLit ++ (ws ++ (a :: b :: c :: v))) =
      some ([a, b, c], mostLit.length + ws.length + 3) := by
  have hcount : countLeadingWS (ws ++ (a :: b :: c :: v)) = ws.length := by
    rw [countLeadingWS_append ws _ hws]
    rw [show countLeadingWS (a :: b :: c :: v) =
      (if isSpaceChar a then countLeadingWS (b :: c :: v) + 1 else 0) from rfl]
    rw [if_neg (by simp [hna])]
    omega
  have htake : takeLetters 3 (a :: b :: c :: v) = ([a, b, c], v) := by
    simp [takeLetters, ha, hb, hc]
  rw [matchMostAt, matchLitCI_append]
  simp only [hcount, List.drop_left, htake]
  simp

/-- C9 helper: a labeled-line occurrence of a three-letter label, preceded
only by interference-free text, puts that label's capture in the raw
ensemble scan. -/
theorem ensembleRaw_most_mem (u ws v : List Char) (a b c : Char)
    (hu : ∀ x ∈ u, x ≠ '*' ∧ x.toLower ≠ 'm')
    (hws : ∀ x ∈ ws, isSpaceChar x = true)
    (ha : isLetterAZ a = true) (hb : isLetterAZ b = true)
    (hc : isLetterAZ c = true) (hna : isSpaceChar a = false) :
    String.mk [a, b, c] ∈
      reprocessRawScan (u ++ (mostLit ++ (ws ++ (a :: b :: c :: v)))) "ensemble" := by
  rw [reprocessRawScan, if_pos rfl, ensembleScan, ensembleScanGo_clean_prefix u _ hu]
  have he : matchEnsembleAt (mostLit ++ (ws ++ (a :: b :: c :: v))) =
      some ([a, b, c], mostLit.length + ws.length + 3) := by
    rw [matchEnsembleAt, matchMostAt_boundary ws v a b c hws ha hb hc hna]
  rw [show mostLit ++ (ws ++ (a :: b :: c :: v)) =
    'M' :: ("OST IMPACTFUL VIOLATION:".data ++ (ws ++ (a :: b :: c :: v)))
    from rfl] at he ⊢
  rw [show ensembleScanGo 0
      ('M' :: ("OST IMPACTFUL VIOLATION:".data ++ (ws ++ (a :: b :: c :: v)))) =
    (match matchEnsembleAt
        ('M' :: ("OST IMPACTFUL VIOLATION:".data ++ (ws ++ (a :: b :: c :: v)))) with
      | some (cap, n) => String.mk cap ::
          ensembleScanGo (n - 1)
            ("OST IMPACTFUL VIOLATION:".data ++ (ws ++ (a :: b :: c :: v)))
      | none => ensembleScanGo 0
          ("OST IMPACTFUL VIOLATION:".data ++ (ws ++ (a :: b :: c :: v))))
    from rfl]
  rw [he]
  exact List.mem_cons_self _ _

/-- C9 helper: a bold occurrence of a three-letter label, preceded only by
interference-free text, puts that label's capture in the raw ensemble
scan. -/
theorem ensembleRaw_bold_mem (u v : List Char) (a b c : Char)
    (hu : ∀ x ∈ u, x ≠ '*' ∧ x.toLower ≠ 'm')
    (ha : isLetterAZ a = true) (hb : isLetterAZ b = true)
    (hc : isLetterAZ c = true) :
    String.mk [a, b, c] ∈
      reprocessRawScan (u ++ ('*' :: '*' :: a :: b :: c :: '*' :: '*' :: v))
        "ensemble" := by
  rw [reprocessRawScan, if_pos rfl, ensembleScan, ensembleScanGo_clean_prefix u _ hu]
  have htake : takeLetters 3 (a :: b :: c :: ('*' :: '*' :: v)) =
      ([a, b, c], '*' :: '*' :: v) := by
    simp [takeLetters, ha, hb, hc]
  have hbody : matchBoldBody (a :: b :: c :: ('*' :: '*' :: v)) =
      some ([a, b, c], 5) := by
    rw [matchBoldBody, htake]
    simp
  have he : matchEnsembleAt ('*' :: '*' :: a :: b :: c :: '*' :: '*' :: v) =
      some ([a, b, c], 7) := by
    rw [matchEnsembleAt]
    rw [show matchMostAt ('*' :: '*' :: a :: b :: c :: '*' :: '*' :: v) = none
      from rfl]
    rw [show matchBoldAt ('*' :: '*' :: a :: b :: c :: '*' :: '*' :: v) =
      (matchBoldBody (a :: b :: c :: ('*' :: '*' :: v))).map
        (fun p => (p.1, p.2 + 2)) from rfl]
    rw [hbody]
    rfl
  rw [show ensembleScanGo 0 ('*' :: '*' :: a :: b :: c :: '*' :: '*' :: v) =
    (match matchEnsembleAt ('*' :: '*' :: a :: b :: c :: '*' :: '*' :: v) with
      | some (cap, n) => String.mk cap ::
          ensembleScanGo (n - 1) ('*' :: a :: b :: c :: '*' :: '*' :: v)
      | none => ensembleScanGo 0 ('*' :: a :: b :: c :: '*' :: '*' :: v))
    from rfl]
  rw [he]
  exact List.mem_cons_self _ _

/-- C9 helper: a bold `**NONE**` occurrence, preceded only by
interference-free text, puts `NONE` in the raw ensemble scan (here the
closing `**` blocks the greedy letter capture and the `NONE` alternative is
reached). -/
theorem ensembleRaw_bold_none_mem (u v : List Char)
    (hu : ∀ x ∈ u, x ≠ '*' ∧ x.toLower ≠ 'm') :
    String.mk ['N', 'O', 'N', 'E'] ∈
      reprocessRawScan
        (u ++ ('*' :: '*' :: 'N' :: 'O' :: 'N' :: 'E' :: '*' :: '*' :: v))
        "ensemble" := by
  rw [reprocessRawScan, if_pos rfl, ensembleScan, ensembleScanGo_clean_prefix u _ hu]
  have he : matchEnsembleAt
      ('*' :: '*' :: 'N' :: 'O' :: 'N' :: 'E' :: '*' :: '*' :: v) =
      some (['N', 'O', 'N', 'E'], 8) := rfl
  rw [show ensembleScanGo 0
      ('*' :: '*' :: 'N' :: 'O' :: 'N' :: 'E' :: '*' :: '*' :: v) =
    (match matchEnsembleAt
        ('*' :: '*' :: 'N' :: 'O' :: 'N' :: 'E' :: '*' :: '*' :: v) with
      | some (cap, n) => String.mk cap ::
          ensembleScanGo (n - 1) ('*' :: 'N' :: 'O' :: 'N' :: 'E' :: '*' :: '*' :: v)
      | none => ensembleScanGo 0 ('*' :: 'N' :: 'O' :: 'N' :: 'E' :: '*' :: '*' :: v))
    from rfl]
  rw [he]
  exact List.mem_cons_self _ _

/-- A validated uppercase label in the raw scan survives into the final
extraction set. -/
theorem mem_reprocessExtract_of_raw {l : List Char} {strategy X : String}
    (hX : X ∈ validLabels) (hup : strUpper X = X)
    (hraw : X ∈ reprocessRawScan l strategy) :
    X ∈ reprocessExtract (String.mk l) strategy := by
  rw [reprocessExtract]
  apply mem_setList.mpr
  apply List.mem_filter.mpr
  constructor
  · exact hup ▸ List.mem_map_of_mem strUpper hraw
  · simpa using hX

/-- C9 amended: under `reprocess_dip`'s ensemble strategy the labeled-line
form and the bold form are recognized in one non-overlapping scan and merged
into a single duplicate-free candidate set.  A principle label
`X ∈ SRP, OCP, LSP, ISP, DIP` is included whenever it occurs in the
labeled-line form `MOST IMPACTFUL VIOLATION: X` (any whitespace run after
the colon) or in the bold form `**X**`, provided the text before the
occurrence contains no asterisk and no `M`/`m` (text that an earlier match
could consume — without this proviso an overlapping earlier match can
swallow the occurrence).  `NONE` is included through the bold form only: in
the labeled-line form the greedy `[A-Z]{2,3}` capture takes `NON`, which is
discarded.  The `vio_compare_t2` ensemble pattern recognizes only the bold
form. -/
theorem c9_ensemble_amended :
    (∀ (u ws v : List Char) (X : String),
      X ∈ (["SRP", "OCP", "LSP", "ISP", "DIP"] : List String) →
      (∀ x ∈ u, x ≠ '*' ∧ x.toLower ≠ 'm') →
      (∀ x ∈ ws, isSpaceChar x = true) →
      X ∈ reprocessExtract
        (String.mk (u ++ (mostLit ++ (ws ++ (X.data ++ v))))) "ensemble") ∧
    (∀ (u v : List Char) (X : String),
      X ∈ validLabels →
      (∀ x ∈ u, x ≠ '*' ∧ x.toLower ≠ 'm') →
      X ∈ reprocessExtract
        (String.mk (u ++ ('*' :: '*' :: (X.data ++ ('*' :: '*' :: v)))))
        "ensemble") ∧
    (∀ (text strategy : String), (reprocessExtract text strategy).Nodup) := by
  refine ⟨?_, ?_, ?_⟩
  · intro u ws v X hX hu hws
    have hX' : X = "SRP" ∨ X = "OCP" ∨ X = "LSP" ∨ X = "ISP" ∨ X = "DIP" := by
      simpa using hX
    rcases hX' with rfl | rfl | rfl | rfl | rfl <;>
      exact mem_reprocessExtract_of_raw (by decide) (by decide)
        (ensembleRaw_most_mem u ws v _ _ _ hu hws
          (by decide) (by decide) (by decide) (by decide))
  · intro u v X hX hu
    have hX' : X = "SRP" ∨ X = "OCP" ∨ X = "LSP" ∨ X = "ISP" ∨ X = "DIP" ∨
        X = "NONE" := by simpa [validLabels] using hX
    rcases hX' with rfl | rfl | rfl | rfl | rfl | rfl
    · exact mem_reprocessExtract_of_raw (by decide) (by decide)
        (ensembleRaw_bold_mem u v _ _ _ hu (by decide) (by decide) (by decide))
    · exact mem_reprocessExtract_of_raw (by decide) (by decide)
        (ensembleRaw_bold_mem u v _ _ _ hu (by decide) (by decide) (by decide))
    · exact mem_reprocessExtract_of_raw (by decide) (by decide)
        (ensembleRaw_bold_mem u v _ _ _ hu (by decide) (by decide) (by decide))
    · exact mem_reprocessExtract_of_raw (by decide) (by decide)
        (ensembleRaw_bold_mem u v _ _ _ hu (by decide) (by decide) (by decide))
    · exact mem_reprocessExtract_of_raw (by decide) (by decide)
        (ensembleRaw_bold_mem u v _ _ _ hu (by decide) (by decide) (by decide))
    · exact mem_reprocessExtract_of_raw (by decide) (by decide)
        (ensembleRaw_bold_none_mem u v hu)
  · intro text strategy
    exact setList_nodup _

/-- C9 witness: a labeled-line `DIP` and a bold `NONE` are extracted from
concrete ensemble responses. -/
theorem c9_ensemble_witness :
    "DIP" ∈ reprocessExtract
      (String.mk ("The verdict: ".data ++
        (mostLit ++ (" ".data ++ ("DIP".data ++ " is worst".data)))))
      "ensemble" ∧
    "NONE" ∈ reprocessExtract
      (String.mk ("ok ".data ++ ('*' :: '*' :: ("NONE".data ++ ('*' :: '*' :: [])))))
      "ensemble" :=
  ⟨c9_ensemble_amended.1 "The verdict: ".data " ".data " is worst".data "DIP"
      (by decide) (by decide) (by decide),
    c9_ensemble_amended.2.1 "ok ".data [] "NONE" (by decide) (by decide)⟩
